import Mathlib

/-
  Verification of the BITS upload handler (scusi/gobits, handler.go).

  The Go handler is shallowly embedded: the filesystem is an explicit state
  (directories plus an association list from paths to byte lists), HTTP
  requests and responses are plain records, the lifecycle callback is
  reflected as a trace of emitted events, and every handler entry point is a
  pure function from (config, state, request) to (response, state, events).

  Helper functions of the repository that are not part of handler.go
  (`bitsError`, `parseRange`, `isValidUUID`, `newUUID`, `exists`) are
  modelled from the specification; each carries a doc comment saying so.
-/

namespace Gobits

/-- Event kinds of the lifecycle callback (bits.go constants
`EventCreateSession`, `EventRecieveFile`, `EventCancelSession`,
`EventCloseSession`; the receive constant is spelled `Recieve` in the
source). -/
inductive EventType where
  | createSession
  | recieveFile
  | cancelSession
  | closeSession
deriving DecidableEq, Repr

/-- One callback invocation: kind, session id, path argument. -/
abbrev EventRec := EventType × String × String

/-- An HTTP response as the handler builds it: status code, response headers
in emission order, body bytes. -/
structure Response where
  status : Nat
  headers : List (String × String)
  body : List Nat
deriving DecidableEq, Repr

/-- An HTTP request as far as the handler reads it: method, request URI,
headers, body bytes. -/
structure Request where
  method : String
  requestURI : String
  headers : List (String × String)
  body : List Nat
deriving DecidableEq, Repr

/-- Models `r.Header.Get(k)`: first value for the key, `""` when absent. -/
def Request.header (r : Request) (k : String) : String :=
  match r.headers.lookup k with
  | some v => v
  | none => ""

/-- The handler configuration (`Config` in the source): temp directory,
supported protocol GUID, allowed HTTP method, maximal file size (0 disables),
allow and deny regex pattern lists. -/
structure Config where
  tempDir : String
  protocol : String
  allowedMethod : String
  maxSize : Nat
  allowed : List String
  disallowed : List String
deriving Repr

/-- The filesystem state: existing directories and files (path to byte
contents).  The association list is consed on update; `lookup` sees the
newest entry. -/
structure FileSystem where
  dirs : List String
  files : List (String × List Nat)
deriving DecidableEq, Repr

/-- Directory existence check (models `exists` on a directory; the model's
filesystem never fails, so the error return of `exists` is always nil). -/
def FileSystem.dirExists (fs : FileSystem) (p : String) : Bool :=
  fs.dirs.contains p

/-- Models `os.MkdirAll`: ensure a directory exists.  Cannot fail in the model. -/
def FileSystem.mkdirAll (fs : FileSystem) (p : String) : FileSystem :=
  if fs.dirs.contains p then fs else { fs with dirs := p :: fs.dirs }

/-- Contents of a file, or `none` when it does not exist. -/
def FileSystem.readFile (fs : FileSystem) (p : String) : Option (List Nat) :=
  fs.files.lookup p

/-- Overwrite (or create) a file with the given contents. -/
def FileSystem.setFile (fs : FileSystem) (p : String) (c : List Nat) : FileSystem :=
  { fs with files := (p, c) :: fs.files }

/-- Size on disk of a file; 0 when the file does not exist (the handler's
`fileSize` variable). -/
def fileSize (fs : FileSystem) (p : String) : Nat :=
  match fs.readFile p with
  | none => 0
  | some c => c.length

/-- Contents of a file, `[]` when absent (a freshly created file is empty,
so appending to `fileContents` covers both open modes of the handler:
`O_CREATE|O_WRONLY` on a fresh file and `O_APPEND|O_WRONLY` on an existing
one). -/
def fileContents (fs : FileSystem) (p : String) : List Nat :=
  match fs.readFile p with
  | none => []
  | some c => c

/-- Models `path.Join` of a directory and one more component.  Go's `path.Join`
also lexically cleans the result; no claim depends on cleaning, and the
concrete inputs used here are already clean. -/
def pathJoin (a b : String) : String :=
  a ++ ("/") ++ b

/-- Split a character list at every occurrence of the separator character.
Always returns at least one (possibly empty) token; mirrors Go's
`strings.Split` with a one-character separator. -/
def splitOnChar (sep : Char) : List Char → List (List Char)
  | [] => [[]]
  | x :: xs =>
    if x = sep then [] :: splitOnChar sep xs
    else
      match splitOnChar sep xs with
      | [] => [[x]]
      | g :: gs => (x :: g) :: gs

/-- Models `strings.Split(s, " ")` (single-space separator, empty tokens kept). -/
def splitBySpace (s : String) : List String :=
  (splitOnChar (' ') s.toList).map List.asString

/-- Models `path.Split`: the final path segment of a URI (everything after the
last slash; the whole string when there is no slash). -/
def lastSegment (s : String) : String :=
  ((splitOnChar ('/') s.toList).getLastD []).asString

/-- Decimal digit value of a character, `none` for a non-digit. -/
def digitVal (c : Char) : Option Nat :=
  if c.isDigit then some (c.toNat - 48) else none

/-- Parse a nonempty all-digit character list as a decimal number. -/
def parseDecimalAux : Nat → List Char → Option Nat
  | acc, [] => some acc
  | acc, c :: cs =>
    match digitVal c with
    | none => none
    | some d => parseDecimalAux (acc * 10 + d) cs

/-- Modelled from the spec: decimal unsigned 64-bit parsing as done by
`strconv.ParseUint(s, 10, 64)` — nonempty digit string, value below `2^64`.
(`strconv` is only called from handler.go; the parse itself is library
code.) -/
def parseUint64 (s : String) : Option Nat :=
  match s.toList with
  | [] => none
  | c :: cs =>
    match parseDecimalAux 0 (c :: cs) with
    | none => none
    | some n => if n < 2 ^ 64 then some n else none

/-- Modelled from the spec: `parseRange` is defined outside handler.go
(bits.go); per section 4.A it parses `Content-Range` of the form
`bytes A-B/C` with A, B, C decimal unsigned 64-bit integers and fails when
the string is malformed, `A > B`, or `C ≤ B`.  Returns
`(rangeStart, rangeEnd, fileLength)`. -/
def parseRange (s : String) : Option (Nat × Nat × Nat) :=
  match s.toList with
  | 'b' :: 'y' :: 't' :: 'e' :: 's' :: ' ' :: rest =>
    match splitOnChar ('/') rest with
    | [abPart, cPart] =>
      match splitOnChar ('-') abPart with
      | [aPart, bPart] =>
        match parseUint64 aPart.asString, parseUint64 bPart.asString,
              parseUint64 cPart.asString with
        | some a, some b, some c =>
          if a > b then none
          else if c ≤ b then none
          else some (a, b, c)
        | _, _, _ => none
      | _ => none
    | _ => none
  | _ => none

/-- Lowercase hexadecimal digit or decimal digit. -/
def isLowerHexDigit (c : Char) : Bool :=
  c.isDigit || (97 ≤ c.toNat && c.toNat ≤ 102)

/-- Shape of the canonical session id at a given character position:
braces at the ends, dashes at positions 9, 14, 19, 24, lowercase hex
elsewhere. -/
def uuidShapeOK (i : Nat) (c : Char) : Bool :=
  if i = 0 then c = '\x7b'
  else if i = 37 then c = '\x7d'
  else if i = 9 ∨ i = 14 ∨ i = 19 ∨ i = 24 then c = '-'
  else isLowerHexDigit c

/-- Modelled from the spec: `isValidUUID` is defined outside handler.go;
per section 3 a session id is a canonical UUID in the textual form
`\x7bxxxxxxxx-xxxx-xxxx-xxxx-xxxxxxxxxxxx\x7d` (braces included,
lowercase hex), 38 characters in all. -/
def isValidUUID (s : String) : Bool :=
  s.toList.length = 38 && s.toList.enum.all fun p => uuidShapeOK p.1 p.2

/-- One hexadecimal digit character (lowercase). -/
def hexDigit (n : Nat) : Char :=
  if n < 10 then Char.ofNat (48 + n) else Char.ofNat (87 + n)

/-- Format a number as `0x` followed by eight hex digits, as the error
responder prints BITS error codes. -/
def toHex8 (n : Nat) : String :=
  ("0x") ++ ((List.range 8).map fun i => hexDigit (n / 16 ^ (7 - i) % 16)).asString

/-- Modelled from the spec: `bitsError` is defined outside handler.go; per
section 4.G every BITS error acknowledgement has an empty body and the
headers `BITS-Packet-Type: Ack`, `BITS-Session-Id` (possibly empty),
`BITS-Error-Code` and `BITS-Error-Context` as eight-hex-digit codes, with
the HTTP status chosen by the caller.  `pre` holds headers the caller
already added to the response writer before invoking `bitsError` (the 416
paths of `bitsFragment` do this). -/
def bitsError (pre : List (String × String)) (sessionId : String)
    (status code context : Nat) : Response :=
  { status := status
    headers := pre ++
      [(("BITS-Packet-Type"), ("Ack")),
       (("BITS-Session-Id"), sessionId),
       (("BITS-Error-Code"), toHex8 code),
       (("BITS-Error-Context"), toHex8 context)]
    body := [] }

/-- Constant `ErrorContextRemoteFile` of the source (0x00000005). -/
def ErrorContextRemoteFile : Nat := 5

/-- Go's `http.Error`: plain-text response carrying the message plus a
newline as body, without any BITS header.  Used by `ServeHTTP` for the
method check. -/
def httpError (msg : String) (status : Nat) : Response :=
  { status := status
    headers := [(("Content-Type"), ("text/plain; charset=utf-8")),
                (("X-Content-Type-Options"), ("nosniff"))]
    body := (msg.toList.map Char.toNat) ++ [10] }

/-- The success acknowledgement of `bitsFragment` (lines 345-349): status
200, `BITS-Packet-Type: Ack`, the session id and the correctly spelled
`BITS-Received-Content-Range` carrying `n` in decimal. -/
def ackFragment (u : String) (n : Nat) : Response :=
  { status := 200
    headers := [(("BITS-Packet-Type"), ("Ack")),
                (("BITS-Session-Id"), u),
                (("BITS-Received-Content-Range"), toString n)]
    body := [] }

/-- One regex scan loop of `bitsFragment`: walk the pattern list with the
match oracle `m` (modelling `regexp.MatchString`, whose error return is
`none`).  Returns `none` as soon as a match attempt errors, `some true` on
the first match, `some false` when no pattern matches.  Both the deny loop
(lines 162-175) and the allow loop (lines 179-190) have this shape. -/
def scanMatch (m : String → String → Option Bool) (filename : String) :
    List String → Option Bool
  | [] => some false
  | p :: ps =>
    match m p filename with
    | none => none
    | some true => some true
    | some false => scanMatch m filename ps

/-- The write stage of `bitsFragment` (handler.go lines 251-350): stale and
gap sanity checks, overlap trimming, append, completion event, success ack.
`a`, `b`, `c` are the parsed range, `fsz` the parsed `Content-Length`,
`data` the request body.  Note the 416 paths pre-add the *misspelled*
header `BITS-Recieved-Content-Range` (lines 300 and 306 of the source).
The short-write branch keeps the written bytes in the state, as the Go file
write happens before the check; in this ideal filesystem the branch is
unreachable. -/
def fragWrite (u src : String) (fs : FileSystem) (a b c fsz : Nat)
    (data : List Nat) : Response × FileSystem × List EventRec :=
  let fsize := fileSize fs src
  if b < fsize then
    (bitsError [(("BITS-Recieved-Content-Range"), toString fsize)] u 416 0
      ErrorContextRemoteFile, fs, [])
  else if a > fsize then
    (bitsError [(("BITS-Recieved-Content-Range"), toString fsize)] u 416 0
      ErrorContextRemoteFile, fs, [])
  else
    let dataOffset := fsize - a
    let chunk := data.drop dataOffset
    let fs2 := fs.setFile src (fileContents fs src ++ chunk)
    if chunk.length ≠ fsz - dataOffset then
      (bitsError [] u 500 0 ErrorContextRemoteFile, fs2, [])
    else
      (ackFragment u (fsize + chunk.length), fs2,
       if b + 1 = c then [(EventType.recieveFile, u, src)] else [])

/-- Function `bitsFragment` (handler.go lines 123-351): the precondition cascade in
source order — session id shape, session directory existence, `MkdirAll`
(a no-op, the directory exists), filename extraction, deny scan, allow
scan, `Content-Range` parse, max-size check, `Content-Length` parse, body
length check, range-size check — then the write stage.  `filepath.Abs` is
modelled as the identity on the joined path (the temp root is taken
absolute and clean). -/
def bitsFragment (cfg : Config) (m : String → String → Option Bool)
    (fs : FileSystem) (r : Request) (uuid : String) :
    Response × FileSystem × List EventRec :=
  if uuid = ("") ∨ ¬ isValidUUID uuid then
    (bitsError [] ("") 400 0 ErrorContextRemoteFile, fs, [])
  else
    let srcDir := pathJoin cfg.tempDir uuid
    if ¬ fs.dirExists srcDir then
      (bitsError [] uuid 400 0 ErrorContextRemoteFile, fs, [])
    else
      let fs1 := fs.mkdirAll srcDir
      let filename := lastSegment r.requestURI
      if filename = ("") then
        (bitsError [] uuid 400 0 ErrorContextRemoteFile, fs1, [])
      else
        match scanMatch m filename cfg.disallowed with
        | none => (bitsError [] uuid 400 0 ErrorContextRemoteFile, fs1, [])
        | some true => (bitsError [] uuid 400 0 ErrorContextRemoteFile, fs1, [])
        | some false =>
          match scanMatch m filename cfg.allowed with
          | none => (bitsError [] uuid 400 0 ErrorContextRemoteFile, fs1, [])
          | some false => (bitsError [] uuid 400 0 ErrorContextRemoteFile, fs1, [])
          | some true =>
            let src := pathJoin srcDir filename
            match parseRange (r.header ("Content-Range")) with
            | none => (bitsError [] uuid 400 0 ErrorContextRemoteFile, fs1, [])
            | some (rangeStart, rangeEnd, fileLength) =>
              if cfg.maxSize > 0 ∧ fileLength > cfg.maxSize then
                (bitsError [] uuid 413 0 ErrorContextRemoteFile, fs1, [])
              else
                match parseUint64 (r.header ("Content-Length")) with
                | none => (bitsError [] uuid 400 0 ErrorContextRemoteFile, fs1, [])
                | some fragmentSize =>
                  if r.body.length ≠ fragmentSize then
                    (bitsError [] uuid 400 0 ErrorContextRemoteFile, fs1, [])
                  else if rangeEnd - rangeStart + 1 ≠ fragmentSize then
                    (bitsError [] uuid 400 0 ErrorContextRemoteFile, fs1, [])
                  else
                    fragWrite uuid src fs1 rangeStart rangeEnd fileLength
                      fragmentSize r.body

/-- Function `bitsPing` (handler.go lines 61-64). -/
def bitsPing : Response :=
  { status := 200, headers := [(("BITS-Packet-Type"), ("Ack"))], body := [] }

/-- The protocol-selection loop of `bitsCreate` (lines 71-79): iterate over
tokens, break on the first one equal to the target; the loop variable keeps
the last token otherwise (`""` on an empty list, which `strings.Split`
never yields). -/
def chooseProtocol (target : String) : List String → String
  | [] => ("")
  | [p] => p
  | p :: q :: ps => if p = target then p else chooseProtocol target (q :: ps)

/-- Function `bitsCreate` (handler.go lines 68-119).  `uuidRes` is the outcome of
`newUUID` (modelled from the spec: a fresh canonical UUID minted from a
random source, `none` on failure) and `mkdirFail` injects an `os.MkdirAll`
failure, both external effects. -/
def bitsCreate (cfg : Config) (uuidRes : Option String) (mkdirFail : Bool)
    (fs : FileSystem) (r : Request) : Response × FileSystem × List EventRec :=
  let protocols := splitBySpace (r.header ("BITS-Supported-Protocols"))
  let protocol := chooseProtocol cfg.protocol protocols
  if protocol ≠ cfg.protocol then
    (bitsError [] ("") 400 0 ErrorContextRemoteFile, fs, [])
  else
    match uuidRes with
    | none => (bitsError [] ("") 500 0 ErrorContextRemoteFile, fs, [])
    | some uuid =>
      if mkdirFail then
        (bitsError [] ("") 500 0 ErrorContextRemoteFile, fs, [])
      else
        let tmpDir := pathJoin cfg.tempDir uuid
        ({ status := 200
           headers := [(("BITS-Packet-Type"), ("Ack")),
                       (("BITS-Protocol"), protocol),
                       (("BITS-Session-Id"), uuid),
                       (("Accept-Encoding"), ("Identity"))]
           body := [] },
         fs.mkdirAll tmpDir, [(EventType.createSession, uuid, tmpDir)])

/-- Function `bitsCancel` (handler.go lines 355-383). -/
def bitsCancel (cfg : Config) (fs : FileSystem) (uuid : String) :
    Response × FileSystem × List EventRec :=
  if uuid = ("") ∨ ¬ isValidUUID uuid then
    (bitsError [] uuid 400 0 ErrorContextRemoteFile, fs, [])
  else
    let destDir := pathJoin cfg.tempDir uuid
    if ¬ fs.dirExists destDir then
      (bitsError [] uuid 400 0 ErrorContextRemoteFile, fs, [])
    else
      ({ status := 200
         headers := [(("BITS-Packet-Type"), ("Ack")),
                     (("BITS-Session-Id"), uuid)]
         body := [] },
       fs, [(EventType.cancelSession, uuid, destDir)])

/-- Function `bitsClose` (handler.go lines 387-416); same shape as `bitsCancel` with
the close event. -/
def bitsClose (cfg : Config) (fs : FileSystem) (uuid : String) :
    Response × FileSystem × List EventRec :=
  if uuid = ("") ∨ ¬ isValidUUID uuid then
    (bitsError [] uuid 400 0 ErrorContextRemoteFile, fs, [])
  else
    let destDir := pathJoin cfg.tempDir uuid
    if ¬ fs.dirExists destDir then
      (bitsError [] uuid 400 0 ErrorContextRemoteFile, fs, [])
    else
      ({ status := 200
         headers := [(("BITS-Packet-Type"), ("Ack")),
                     (("BITS-Session-Id"), uuid)]
         body := [] },
       fs, [(EventType.closeSession, uuid, destDir)])

/-- ASCII lowercasing of one character; `strings.ToLower` restricted to
the ASCII range, which covers every packet-type comparison the handler
makes. -/
def asciiLower (c : Char) : Char :=
  if 65 ≤ c.toNat ∧ c.toNat ≤ 90 then Char.ofNat (c.toNat + 32) else c

/-- Models `strings.ToLower` on the handler's inputs. -/
def strToLower (s : String) : String := (s.toList.map asciiLower).asString

/-- Function `ServeHTTP` (handler.go lines 17-57): method gate via `http.Error`,
then dispatch on the lowercased `BITS-Packet-Type`.  The `DumpRequest`
failure path cannot occur on the plain request record of the model. -/
def ServeHTTP (cfg : Config) (m : String → String → Option Bool)
    (uuidRes : Option String) (mkdirFail : Bool)
    (fs : FileSystem) (r : Request) : Response × FileSystem × List EventRec :=
  if r.method ≠ cfg.allowedMethod then
    (httpError ("Method not allowed") 405, fs, [])
  else
    let packetType := strToLower (r.header ("BITS-Packet-Type"))
    let sessionID := r.header ("BITS-Session-Id")
    if packetType = ("ping") then (bitsPing, fs, [])
    else if packetType = ("create-session") then bitsCreate cfg uuidRes mkdirFail fs r
    else if packetType = ("cancel-session") then bitsCancel cfg fs sessionID
    else if packetType = ("close-session") then bitsClose cfg fs sessionID
    else if packetType = ("fragment") then bitsFragment cfg m fs r sessionID
    else (bitsError [] ("") 400 0 ErrorContextRemoteFile, fs, [])

/-- The upload file path of a Fragment request: temp root, session id,
last URI segment. -/
def fragPath (cfg : Config) (u : String) (r : Request) : String :=
  pathJoin (pathJoin cfg.tempDir u) (lastSegment r.requestURI)

/-- The nine Fragment preconditions (spec section 4.F, in order): session id
well-formed, session directory exists, filename nonempty, deny/allow filter
pass, `Content-Range` parses to `(a, b, c)`, file length within `maxSize`,
`Content-Length` parses to `fsz`, body length equals `fsz`, range size
equals `fsz`. -/
abbrev FragPre (cfg : Config) (m : String → String → Option Bool)
    (fs : FileSystem) (r : Request) (u : String) (a b c fsz : Nat) : Prop :=
  isValidUUID u = true ∧
  fs.dirExists (pathJoin cfg.tempDir u) = true ∧
  lastSegment r.requestURI ≠ ("") ∧
  scanMatch m (lastSegment r.requestURI) cfg.disallowed = some false ∧
  scanMatch m (lastSegment r.requestURI) cfg.allowed = some true ∧
  parseRange (r.header ("Content-Range")) = some (a, b, c) ∧
  ¬ (cfg.maxSize > 0 ∧ c > cfg.maxSize) ∧
  parseUint64 (r.header ("Content-Length")) = some fsz ∧
  r.body.length = fsz ∧
  b - a + 1 = fsz

/-- The fragment is neither stale (`b < file_size`) nor gapped
(`a > file_size`). -/
abbrev NotStaleGap (fs : FileSystem) (p : String) (a b : Nat) : Prop :=
  fileSize fs p ≤ b ∧ a ≤ fileSize fs p

/-- Follows the spec's words (section 4.F): the ordered precondition
cascade of a Fragment request.  Returns `some (sessionIdForError, status)`
at the first failing check (`TooLarge` 413 for the max-size check, 400 for
all others), `none` when all nine preconditions hold.  Compared against
`bitsFragment` to establish that the source checks them in this order with
the first failure winning. -/
def firstFail (cfg : Config) (m : String → String → Option Bool)
    (fs : FileSystem) (r : Request) (u : String) : Option (String × Nat) :=
  if ¬ isValidUUID u then some (("" ), 400)
  else if ¬ fs.dirExists (pathJoin cfg.tempDir u) then some (u, 400)
  else if lastSegment r.requestURI = ("") then some (u, 400)
  else if ¬ (scanMatch m (lastSegment r.requestURI) cfg.disallowed = some false ∧
             scanMatch m (lastSegment r.requestURI) cfg.allowed = some true) then
    some (u, 400)
  else
    match parseRange (r.header ("Content-Range")) with
    | none => some (u, 400)
    | some (a, b, c) =>
      if cfg.maxSize > 0 ∧ c > cfg.maxSize then some (u, 413)
      else
        match parseUint64 (r.header ("Content-Length")) with
        | none => some (u, 400)
        | some fsz =>
          if r.body.length ≠ fsz then some (u, 400)
          else if b - a + 1 ≠ fsz then some (u, 400)
          else none

/-- Run a list of Fragment requests in order (each taking its session id
from its own `BITS-Session-Id` header, as `ServeHTTP` does), collecting the
responses and the concatenated event trace. -/
def runFragments (cfg : Config) (m : String → String → Option Bool) :
    FileSystem → List Request → FileSystem × List Response × List EventRec
  | fs, [] => (fs, [], [])
  | fs, r :: rs =>
    let step := bitsFragment cfg m fs r (r.header ("BITS-Session-Id"))
    let rest := runFragments cfg m step.2.1 rs
    (rest.1, step.1 :: rest.2.1, step.2.2 ++ rest.2.2)

/-- Header value `BITS-Received-Content-Range` of a successful (200) ack,
`none` for any other response. -/
def successAckHeader (resp : Response) : Option String :=
  if resp.status = 200 then resp.headers.lookup ("BITS-Received-Content-Range")
  else none

/-- Number of receive-file events in a trace. -/
def countReceive (evs : List EventRec) : Nat :=
  (evs.filter fun e => e.1 == EventType.recieveFile).length

/-! Concrete instances used to exercise the theorems. -/

/-- A canonical session id. -/
def uuid0 : String := ("\x7b12345678-1234-1234-1234-123456789abc\x7d")

/-- A configuration with the BITS 1.5 upload protocol GUID, no size limit,
and an allow-everything filter pattern. -/
def cfg0 : Config :=
  { tempDir := ("/tmp")
    protocol := ("\x7b7df0354d-249b-430f-820d-3d2a9bef4931\x7d")
    allowedMethod := ("BITS_POST")
    maxSize := 0
    allowed := [(".*")]
    disallowed := [] }

/-- A match oracle under which every pattern matches every filename. -/
def mAll : String → String → Option Bool := fun _ _ => some true

/-- A match oracle under which a pattern matches exactly the equal string. -/
def mEq : String → String → Option Bool := fun pat s => some (pat == s)

/-- Filesystem holding just the session directory of `uuid0`. -/
def fs0 : FileSystem := { dirs := [pathJoin ("/tmp") uuid0], files := [] }

/-- The upload file path of the concrete session. -/
def path0 : String := pathJoin (pathJoin ("/tmp") uuid0) ("hello.txt")

/-- Fragment 1 of the two-fragment scenario: `bytes 0-4/10`, body `Hello`. -/
def req0 : Request :=
  { method := ("BITS_POST")
    requestURI := ("/upload/hello.txt")
    headers := [(("BITS-Packet-Type"), ("Fragment")),
                (("BITS-Session-Id"), uuid0),
                (("Content-Range"), ("bytes 0-4/10")),
                (("Content-Length"), ("5"))]
    body := [72, 101, 108, 108, 111] }

/-- Fragment 2 of the two-fragment scenario: `bytes 5-9/10`, body `World`. -/
def req1 : Request :=
  { req0 with
    headers := [(("BITS-Packet-Type"), ("Fragment")),
                (("BITS-Session-Id"), uuid0),
                (("Content-Range"), ("bytes 5-9/10")),
                (("Content-Length"), ("5"))]
    body := [87, 111, 114, 108, 100] }

/-- The two-fragment upload. -/
def reqs01 : List Request := [req0, req1]

/-- Filesystem after the completed upload: the file holds `HelloWorld`. -/
def fsDone : FileSystem :=
  { dirs := [pathJoin ("/tmp") uuid0]
    files := [(path0, [72, 101, 108, 108, 111, 87, 111, 114, 108, 100])] }

/-- A fragment with an unparsable `Content-Range`. -/
def reqBadRange : Request :=
  { req0 with
    headers := [(("BITS-Packet-Type"), ("Fragment")),
                (("BITS-Session-Id"), uuid0),
                (("Content-Range"), ("bytes x-4/10")),
                (("Content-Length"), ("5"))] }

/-- A request whose method is not the configured one. -/
def reqWrongMethod : Request := { req0 with method := ("GET") }

/-- A request with an unknown packet type. -/
def reqUnknownPacket : Request :=
  { req0 with headers := [(("BITS-Packet-Type"), ("bogus"))] }

/-- Create-Session request whose supported-protocols header separates two
GUID tokens by a tab: a whitespace-separated token equals the configured
protocol, but no space-separated token does. -/
def reqTabProtocols : Request :=
  { method := ("BITS_POST")
    requestURI := ("/upload")
    headers := [(("BITS-Packet-Type"), ("Create-Session")),
                (("BITS-Supported-Protocols"),
                 ("\x7b7df0354d-249b-430f-820d-3d2a9bef4931\x7d\t\x7b7df0354d-249b-430f-820d-3d2a9bef4931\x7d"))]
    body := [] }

/-- Configuration whose deny list matches `hello.txt` under `mEq` while the
allow list matches it as well: the deny match must win. -/
def cfgDeny : Config :=
  { cfg0 with disallowed := [("hello.txt")], allowed := [("hello.txt")] }

/-- An empty filesystem: no session directory exists. -/
def fsEmpty : FileSystem := { dirs := [], files := [] }

/-- Split a character list at every character satisfying the predicate. -/
def splitOnPred (p : Char → Bool) : List Char → List (List Char)
  | [] => [[]]
  | x :: xs =>
    if p x then [] :: splitOnPred p xs
    else
      match splitOnPred p xs with
      | [] => [[x]]
      | g :: gs => (x :: g) :: gs

/-- The whitespace-separated tokens of a string (the spec's reading of
`BITS-Supported-Protocols` as a whitespace-separated list, i.e. Go's
`strings.Fields`). -/
def whitespaceTokens (s : String) : List String :=
  ((splitOnPred (fun c => c.isWhitespace) s.toList).filter
    (fun t => ¬ t.isEmpty)).map List.asString

/-- A well-formed Create-Session request offering exactly the configured
protocol. -/
def reqCreate : Request :=
  { method := ("BITS_POST")
    requestURI := ("/upload")
    headers := [(("BITS-Packet-Type"), ("Create-Session")),
                (("BITS-Supported-Protocols"),
                 ("\x7b7df0354d-249b-430f-820d-3d2a9bef4931\x7d"))]
    body := [] }

/-! Helper lemmas. -/

theorem isValidUUID_ne_empty {s : String} (h : isValidUUID s = true) : s ≠ ("") := by
  intro hs
  rw [hs] at h
  exact absurd h (by decide)

theorem mkdirAll_of_contains {fs : FileSystem} {p : String}
    (h : fs.dirExists p = true) : fs.mkdirAll p = fs := by
  unfold FileSystem.dirExists at h
  unfold FileSystem.mkdirAll
  rw [if_pos h]

theorem fileContents_length (fs : FileSystem) (p : String) :
    (fileContents fs p).length = fileSize fs p := by
  unfold fileContents fileSize
  cases fs.readFile p <;> rfl

theorem readFile_setFile (fs : FileSystem) (p : String) (c : List Nat) :
    (fs.setFile p c).readFile p = some c := by
  simp [FileSystem.setFile, FileSystem.readFile, List.lookup]

theorem fileSize_setFile (fs : FileSystem) (p : String) (c : List Nat) :
    fileSize (fs.setFile p c) p = c.length := by
  unfold fileSize
  rw [readFile_setFile]

theorem parseRange_sound {s : String} {a b c : Nat}
    (h : parseRange s = some (a, b, c)) : a ≤ b ∧ b < c := by
  unfold parseRange at h
  repeat split at h
  all_goals simp_all
  omega

theorem bitsError_status (pre : List (String × String)) (sid : String)
    (st code ctx : Nat) : (bitsError pre sid st code ctx).status = st := rfl

theorem successAckHeader_bitsError {st : Nat} (pre : List (String × String))
    (sid : String) (code ctx : Nat) (h : st ≠ 200) :
    successAckHeader (bitsError pre sid st code ctx) = none := by
  unfold successAckHeader bitsError
  rw [if_neg h]

theorem successAckHeader_ack (u : String) (n : Nat) :
    successAckHeader (ackFragment u n) = some (toString n) := by
  simp [successAckHeader, ackFragment, List.lookup]

theorem bitsFragment_success_eq (cfg : Config) (m : String → String → Option Bool)
    (fs : FileSystem) (r : Request) (u : String) (a b c fsz : Nat)
    (hpre : FragPre cfg m fs r u a b c fsz)
    (hsg : NotStaleGap fs (fragPath cfg u r) a b) :
    bitsFragment cfg m fs r u =
      (ackFragment u (b + 1),
       fs.setFile (fragPath cfg u r)
         (fileContents fs (fragPath cfg u r) ++
          r.body.drop (fileSize fs (fragPath cfg u r) - a)),
       if b + 1 = c then [(EventType.recieveFile, u, fragPath cfg u r)] else []) := by
  obtain ⟨h1, h2, h3, h4, h5, h6, h7, h8, h9, h10⟩ := hpre
  obtain ⟨hb, ha⟩ := hsg
  have hu0 : u ≠ ("") := isValidUUID_ne_empty h1
  have hlen : (r.body.drop (fileSize fs (fragPath cfg u r) - a)).length =
      fsz - (fileSize fs (fragPath cfg u r) - a) := by
    rw [List.length_drop, h9]
  simp only [bitsFragment]
  rw [if_neg (by simp [h1, hu0]), if_neg (by simp [h2]), mkdirAll_of_contains h2,
    if_neg h3, h4, h5, h6]
  dsimp only
  rw [if_neg h7, h8]
  dsimp only
  rw [if_neg (by omega), if_neg (by omega)]
  simp only [fragWrite, fragPath] at *
  rw [if_neg (by omega), if_neg (by omega), if_neg (by rw [hlen]; omega)]
  have hack : fileSize fs (pathJoin (pathJoin cfg.tempDir u) (lastSegment r.requestURI)) +
      (r.body.drop (fileSize fs (pathJoin (pathJoin cfg.tempDir u) (lastSegment r.requestURI)) - a)).length =
      b + 1 := by
    rw [hlen]
    omega
  rw [hack]

theorem bitsFragment_cases (cfg : Config) (m : String → String → Option Bool)
    (fs : FileSystem) (r : Request) (u : String) :
    (∃ pre sid st, st ≠ 200 ∧
      bitsFragment cfg m fs r u =
        (bitsError pre sid st 0 ErrorContextRemoteFile, fs, [])) ∨
    (∃ a b c fsz, FragPre cfg m fs r u a b c fsz ∧
      NotStaleGap fs (fragPath cfg u r) a b ∧
      bitsFragment cfg m fs r u =
        (ackFragment u (b + 1),
         fs.setFile (fragPath cfg u r)
           (fileContents fs (fragPath cfg u r) ++
            r.body.drop (fileSize fs (fragPath cfg u r) - a)),
         if b + 1 = c then [(EventType.recieveFile, u, fragPath cfg u r)] else [])) := by
  by_cases hv : u = ("") ∨ ¬ isValidUUID u
  · refine Or.inl ⟨[], (""), 400, by decide, ?_⟩
    simp only [bitsFragment]
    rw [if_pos hv]
  push_neg at hv
  obtain ⟨hv1, hv2⟩ := hv
  by_cases hd : fs.dirExists (pathJoin cfg.tempDir u) = true
  case neg =>
    refine Or.inl ⟨[], u, 400, by decide, ?_⟩
    simp only [bitsFragment]
    rw [if_neg (by simp [hv1, hv2]), if_pos (by simpa using hd)]
  simp only [bitsFragment]
  rw [if_neg (by simp [hv1, hv2]), if_neg (by simp [hd]), mkdirAll_of_contains hd]
  by_cases hf : lastSegment r.requestURI = ("")
  · exact Or.inl ⟨[], u, 400, by decide, by rw [if_pos hf]⟩
  rw [if_neg hf]
  cases hden : scanMatch m (lastSegment r.requestURI) cfg.disallowed with
  | none => exact Or.inl ⟨[], u, 400, by decide, rfl⟩
  | some bden =>
    cases bden with
    | true => exact Or.inl ⟨[], u, 400, by decide, rfl⟩
    | false =>
      cases hall : scanMatch m (lastSegment r.requestURI) cfg.allowed with
      | none => exact Or.inl ⟨[], u, 400, by decide, rfl⟩
      | some ball =>
        cases ball with
        | false => exact Or.inl ⟨[], u, 400, by decide, rfl⟩
        | true =>
          cases hpr : parseRange (r.header ("Content-Range")) with
          | none => exact Or.inl ⟨[], u, 400, by decide, rfl⟩
          | some trip =>
            obtain ⟨a, b, c⟩ := trip
            dsimp only
            by_cases hmax : cfg.maxSize > 0 ∧ c > cfg.maxSize
            · exact Or.inl ⟨[], u, 413, by decide, by rw [if_pos hmax]⟩
            rw [if_neg hmax]
            cases hcl : parseUint64 (r.header ("Content-Length")) with
            | none => exact Or.inl ⟨[], u, 400, by decide, rfl⟩
            | some fsz =>
              dsimp only
              by_cases hbl : r.body.length ≠ fsz
              · exact Or.inl ⟨[], u, 400, by decide, by rw [if_pos hbl]⟩
              rw [if_neg hbl]
              by_cases hrs : b - a + 1 ≠ fsz
              · exact Or.inl ⟨[], u, 400, by decide, by rw [if_pos hrs]⟩
              rw [if_neg hrs]
              push_neg at hbl hrs
              have hpre : FragPre cfg m fs r u a b c fsz :=
                ⟨hv2, hd, hf, hden, hall, hpr, hmax, hcl, hbl, hrs⟩
              have hab := parseRange_sound hpr
              by_cases hstale : b < fileSize fs (fragPath cfg u r)
              · refine Or.inl ⟨[(("BITS-Recieved-Content-Range"),
                  toString (fileSize fs (fragPath cfg u r)))], u, 416, by decide, ?_⟩
                simp only [fragWrite, fragPath] at *
                rw [if_pos hstale]
              by_cases hgap : a > fileSize fs (fragPath cfg u r)
              · refine Or.inl ⟨[(("BITS-Recieved-Content-Range"),
                  toString (fileSize fs (fragPath cfg u r)))], u, 416, by decide, ?_⟩
                simp only [fragWrite, fragPath] at *
                rw [if_neg (by omega), if_pos hgap]
              refine Or.inr ⟨a, b, c, fsz, hpre, ⟨by omega, by omega⟩, ?_⟩
              have := bitsFragment_success_eq cfg m fs r u a b c fsz hpre
                ⟨by omega, by omega⟩
              simp only [bitsFragment] at this
              rw [if_neg (by simp [hv1, hv2]), if_neg (by simp [hd]),
                mkdirAll_of_contains hd, if_neg hf, hden, hall, hpr] at this
              dsimp only at this
              rw [if_neg hmax, hcl] at this
              dsimp only at this
              rw [if_neg (by omega), if_neg (by omega)] at this
              exact this

theorem countReceive_append (e1 e2 : List EventRec) :
    countReceive (e1 ++ e2) = countReceive e1 + countReceive e2 := by
  simp [countReceive, List.filter_append]

theorem runFragments_receive_count (cfg : Config) (m : String → String → Option Bool)
    (u f : String) (L : Nat) :
    ∀ (reqs : List Request) (fs : FileSystem),
    (∀ r ∈ reqs, r.header ("BITS-Session-Id") = u) →
    (∀ r ∈ reqs, lastSegment r.requestURI = f) →
    (∀ r ∈ reqs, Option.all (fun x => x.2.2 == L)
        (parseRange (r.header ("Content-Range"))) = true) →
    fileSize fs (pathJoin (pathJoin cfg.tempDir u) f) ≤ L →
    countReceive (runFragments cfg m fs reqs).2.2 +
        (if fileSize fs (pathJoin (pathJoin cfg.tempDir u) f) = L then 1 else 0) =
      (if fileSize (runFragments cfg m fs reqs).1
          (pathJoin (pathJoin cfg.tempDir u) f) = L then 1 else 0) ∧
    fileSize (runFragments cfg m fs reqs).1 (pathJoin (pathJoin cfg.tempDir u) f) ≤ L
  | [], fs, _, _, _, hle => by
    constructor
    · simp [runFragments, countReceive]
    · simpa [runFragments] using hle
  | r :: rs, fs, hu, hf, hL, hle => by
    have hu0 : r.header (("BITS-Session-Id")) = u := hu r (by simp)
    have hf0 : lastSegment r.requestURI = f := hf r (by simp)
    simp only [runFragments]
    simp only [hu0]
    rcases bitsFragment_cases cfg m fs r u with
      ⟨pre, sid, st, hst, heq⟩ | ⟨a, b, c, fsz, hpre, hsg, heq⟩
    · rw [heq]
      have ih := runFragments_receive_count cfg m u f L rs fs
        (fun x hx => hu x (by simp [hx])) (fun x hx => hf x (by simp [hx]))
        (fun x hx => hL x (by simp [hx])) hle
      simpa [countReceive_append] using ih
    · have hfp : fragPath cfg u r = pathJoin (pathJoin cfg.tempDir u) f := by
        simp [fragPath, hf0]
      rw [hfp] at heq hsg
      obtain ⟨_, _, _, _, _, hparse, _, _, hblen, hrsz⟩ := hpre
      have hcL : c = L := by
        have := hL r (by simp)
        rw [hparse] at this
        simpa using this
      have hab := parseRange_sound hparse
      obtain ⟨hsz1, hsz2⟩ := hsg
      rw [heq]
      have hfs' : fileSize
          (fs.setFile (pathJoin (pathJoin cfg.tempDir u) f)
            (fileContents fs (pathJoin (pathJoin cfg.tempDir u) f) ++
             r.body.drop (fileSize fs (pathJoin (pathJoin cfg.tempDir u) f) - a)))
          (pathJoin (pathJoin cfg.tempDir u) f) = b + 1 := by
        rw [fileSize_setFile, List.length_append, fileContents_length,
          List.length_drop, hblen]
        omega
      have ih := runFragments_receive_count cfg m u f L rs
        (fs.setFile (pathJoin (pathJoin cfg.tempDir u) f)
          (fileContents fs (pathJoin (pathJoin cfg.tempDir u) f) ++
           r.body.drop (fileSize fs (pathJoin (pathJoin cfg.tempDir u) f) - a)))
        (fun x hx => hu x (by simp [hx])) (fun x hx => hf x (by simp [hx]))
        (fun x hx => hL x (by simp [hx])) (by rw [hfs']; omega)
      obtain ⟨ih1, ih2⟩ := ih
      rw [hfs'] at ih1
      dsimp only
      refine ⟨?_, ih2⟩
      rw [countReceive_append]
      have hind0 : (if fileSize fs (pathJoin (pathJoin cfg.tempDir u) f) = L
          then 1 else 0) = 0 := by
        rw [if_neg]
        omega
      by_cases hfin : b + 1 = c
      · rw [if_pos hfin]
        rw [if_pos (by omega)] at ih1
        have hone : countReceive [(EventType.recieveFile, u,
            pathJoin (pathJoin cfg.tempDir u) f)] = 1 := by
          simp [countReceive]
        omega
      · rw [if_neg hfin]
        rw [if_neg (by omega)] at ih1
        have hzero : countReceive ([] : List EventRec) = 0 := by
          simp [countReceive]
        omega

theorem runFragments_receive_events (cfg : Config) (m : String → String → Option Bool)
    (u f : String) :
    ∀ (reqs : List Request) (fs : FileSystem),
    (∀ r ∈ reqs, r.header ("BITS-Session-Id") = u) →
    (∀ r ∈ reqs, lastSegment r.requestURI = f) →
    ∀ e ∈ (runFragments cfg m fs reqs).2.2, e.1 = EventType.recieveFile →
      e.2.1 = u ∧ e.2.2 = pathJoin (pathJoin cfg.tempDir u) f
  | [], fs, _, _ => by simp [runFragments]
  | r :: rs, fs, hu, hf => by
    have hu0 : r.header (("BITS-Session-Id")) = u := hu r (by simp)
    have hf0 : lastSegment r.requestURI = f := hf r (by simp)
    simp only [runFragments]
    simp only [hu0]
    intro e he hkind
    rcases bitsFragment_cases cfg m fs r u with
      ⟨pre, sid, st, hst, heq⟩ | ⟨a, b, c, fsz, hpre, hsg, heq⟩
    · rw [heq] at he
      simp only [List.nil_append] at he
      exact runFragments_receive_events cfg m u f rs fs
        (fun x hx => hu x (by simp [hx])) (fun x hx => hf x (by simp [hx]))
        e he hkind
    · have hfp : fragPath cfg u r = pathJoin (pathJoin cfg.tempDir u) f := by
        simp [fragPath, hf0]
      rw [hfp] at heq
      rw [heq] at he
      simp only [List.mem_append] at he
      rcases he with he | he
      · by_cases hfin : b + 1 = c
        · rw [if_pos hfin] at he
          simp only [List.mem_singleton] at he
          rw [he]
          exact ⟨rfl, rfl⟩
        · rw [if_neg hfin] at he
          simp at he
      · exact runFragments_receive_events cfg m u f rs _
          (fun x hx => hu x (by simp [hx])) (fun x hx => hf x (by simp [hx]))
          e he hkind

theorem runFragments_acks (cfg : Config) (m : String → String → Option Bool)
    (u f : String) (L : Nat) :
    ∀ (reqs : List Request) (fs : FileSystem),
    (∀ r ∈ reqs, r.header ("BITS-Session-Id") = u) →
    (∀ r ∈ reqs, lastSegment r.requestURI = f) →
    (∀ r ∈ reqs, Option.all (fun x => x.2.2 == L)
        (parseRange (r.header ("Content-Range"))) = true) →
    ∃ sizes : List Nat,
      (runFragments cfg m fs reqs).2.1.filterMap successAckHeader =
        sizes.map (fun n => toString n) ∧
      List.Chain' (· ≤ ·) sizes ∧
      (∀ n ∈ sizes, n ≤ L) ∧
      (∀ n ∈ sizes, fileSize fs (pathJoin (pathJoin cfg.tempDir u) f) ≤ n)
  | [], fs, _, _, _ => ⟨[], by simp [runFragments], by simp, by simp, by simp⟩
  | r :: rs, fs, hu, hf, hL => by
    have hu0 : r.header (("BITS-Session-Id")) = u := hu r (by simp)
    have hf0 : lastSegment r.requestURI = f := hf r (by simp)
    simp only [runFragments]
    simp only [hu0]
    rcases bitsFragment_cases cfg m fs r u with
      ⟨pre, sid, st, hst, heq⟩ | ⟨a, b, c, fsz, hpre, hsg, heq⟩
    · obtain ⟨sizes, hmap, hchain, hbound, hlow⟩ :=
        runFragments_acks cfg m u f L rs fs
          (fun x hx => hu x (by simp [hx])) (fun x hx => hf x (by simp [hx]))
          (fun x hx => hL x (by simp [hx]))
      refine ⟨sizes, ?_, hchain, hbound, hlow⟩
      rw [heq]
      dsimp only
      rw [List.filterMap_cons_none]
      · exact hmap
      · exact successAckHeader_bitsError pre sid 0 ErrorContextRemoteFile hst
    · have hfp : fragPath cfg u r = pathJoin (pathJoin cfg.tempDir u) f := by
        simp [fragPath, hf0]
      rw [hfp] at heq hsg
      obtain ⟨_, _, _, _, _, hparse, _, _, hblen, hrsz⟩ := hpre
      have hcL : c = L := by
        have := hL r (by simp)
        rw [hparse] at this
        simpa using this
      have hab := parseRange_sound hparse
      obtain ⟨hsz1, hsz2⟩ := hsg
      have hfs' : fileSize
          (fs.setFile (pathJoin (pathJoin cfg.tempDir u) f)
            (fileContents fs (pathJoin (pathJoin cfg.tempDir u) f) ++
             r.body.drop (fileSize fs (pathJoin (pathJoin cfg.tempDir u) f) - a)))
          (pathJoin (pathJoin cfg.tempDir u) f) = b + 1 := by
        rw [fileSize_setFile, List.length_append, fileContents_length,
          List.length_drop, hblen]
        omega
      obtain ⟨sizes, hmap, hchain, hbound, hlow⟩ :=
        runFragments_acks cfg m u f L rs
          (fs.setFile (pathJoin (pathJoin cfg.tempDir u) f)
            (fileContents fs (pathJoin (pathJoin cfg.tempDir u) f) ++
             r.body.drop (fileSize fs (pathJoin (pathJoin cfg.tempDir u) f) - a)))
          (fun x hx => hu x (by simp [hx])) (fun x hx => hf x (by simp [hx]))
          (fun x hx => hL x (by simp [hx]))
      rw [hfs'] at hlow
      refine ⟨(b + 1) :: sizes, ?_, ?_, ?_, ?_⟩
      · rw [heq]
        dsimp only
        simp only [List.filterMap_cons, successAckHeader_ack, hmap, List.map_cons]
      · rw [List.chain'_cons']
        refine ⟨?_, hchain⟩
        intro y hy
        exact hlow y (List.mem_of_mem_head? hy)
      · intro n hn
        rcases List.mem_cons.mp hn with hn | hn
        · omega
        · exact hbound n hn
      · intro n hn
        rcases List.mem_cons.mp hn with hn | hn
        · omega
        · exact le_trans (by omega) (hlow n hn)

theorem splitOnChar_ne_nil (c : Char) : ∀ (l : List Char), splitOnChar c l ≠ []
  | [] => by simp [splitOnChar]
  | x :: xs => by
    unfold splitOnChar
    split
    · simp
    · split <;> simp

theorem splitBySpace_ne_nil (s : String) : splitBySpace s ≠ [] := by
  unfold splitBySpace
  intro h
  exact splitOnChar_ne_nil (' ') s.toList (List.map_eq_nil_iff.mp h)

theorem chooseProtocol_mem {t : String} : ∀ {l : List String},
    t ∈ l → chooseProtocol t l = t
  | [p], h => by
    simp only [List.mem_singleton] at h
    simp [chooseProtocol, h]
  | p :: q :: ps, h => by
    unfold chooseProtocol
    by_cases hp : p = t
    · rw [if_pos hp]
      exact hp
    · rw [if_neg hp]
      rcases List.mem_cons.mp h with h | h
      · exact absurd h.symm hp
      · exact chooseProtocol_mem h

theorem chooseProtocol_not_mem {t : String} : ∀ {l : List String},
    t ∉ l → l ≠ [] → chooseProtocol t l ≠ t
  | [], h, hne => absurd rfl hne
  | [p], h, _ => by
    simp only [List.mem_singleton] at h
    simp [chooseProtocol]
    exact fun hc => h hc.symm
  | p :: q :: ps, h, _ => by
    unfold chooseProtocol
    rw [if_neg (fun hc => h (by simp [hc]))]
    exact chooseProtocol_not_mem (fun hc => h (by simp [hc])) (by simp)

theorem bitsError_ack_shape (pre : List (String × String)) (sid : String)
    (st code : Nat) :
    (bitsError pre sid st code ErrorContextRemoteFile).body = [] ∧
    ((("BITS-Packet-Type"), ("Ack")) ∈
      (bitsError pre sid st code ErrorContextRemoteFile).headers) ∧
    ((("BITS-Session-Id"), sid) ∈
      (bitsError pre sid st code ErrorContextRemoteFile).headers) ∧
    ((("BITS-Error-Code"), toHex8 code) ∈
      (bitsError pre sid st code ErrorContextRemoteFile).headers) ∧
    ((("BITS-Error-Context"), ("0x00000005")) ∈
      (bitsError pre sid st code ErrorContextRemoteFile).headers) := by
  refine ⟨rfl, ?_, ?_, ?_, ?_⟩ <;>
    · simp [bitsError]
      try exact Or.inr (by decide)

theorem bitsCreate_shape (cfg : Config) (ur : Option String) (mf : Bool)
    (fs : FileSystem) (r : Request) :
    (bitsCreate cfg ur mf fs r).1.status = 200 ∨
    ∃ sid st, st ≠ 200 ∧
      (bitsCreate cfg ur mf fs r).1 = bitsError [] sid st 0 ErrorContextRemoteFile := by
  simp only [bitsCreate]
  by_cases hp : chooseProtocol cfg.protocol
      (splitBySpace (r.header ("BITS-Supported-Protocols"))) ≠ cfg.protocol
  · rw [if_pos hp]
    exact Or.inr ⟨(""), 400, by decide, rfl⟩
  rw [if_neg hp]
  cases ur with
  | none => exact Or.inr ⟨(""), 500, by decide, rfl⟩
  | some uuid =>
    dsimp only
    by_cases hm : mf = true
    · rw [if_pos hm]
      exact Or.inr ⟨(""), 500, by decide, rfl⟩
    · rw [if_neg hm]
      exact Or.inl rfl

theorem bitsCancel_shape (cfg : Config) (fs : FileSystem) (u : String) :
    (bitsCancel cfg fs u).1.status = 200 ∨
    ∃ sid st, st ≠ 200 ∧
      (bitsCancel cfg fs u).1 = bitsError [] sid st 0 ErrorContextRemoteFile := by
  simp only [bitsCancel]
  by_cases h1 : u = ("") ∨ ¬ isValidUUID u
  · rw [if_pos h1]
    exact Or.inr ⟨u, 400, by decide, rfl⟩
  rw [if_neg h1]
  by_cases h2 : ¬ fs.dirExists (pathJoin cfg.tempDir u)
  · rw [if_pos h2]
    exact Or.inr ⟨u, 400, by decide, rfl⟩
  · rw [if_neg h2]
    exact Or.inl rfl

theorem bitsClose_shape (cfg : Config) (fs : FileSystem) (u : String) :
    (bitsClose cfg fs u).1.status = 200 ∨
    ∃ sid st, st ≠ 200 ∧
      (bitsClose cfg fs u).1 = bitsError [] sid st 0 ErrorContextRemoteFile := by
  simp only [bitsClose]
  by_cases h1 : u = ("") ∨ ¬ isValidUUID u
  · rw [if_pos h1]
    exact Or.inr ⟨u, 400, by decide, rfl⟩
  rw [if_neg h1]
  by_cases h2 : ¬ fs.dirExists (pathJoin cfg.tempDir u)
  · rw [if_pos h2]
    exact Or.inr ⟨u, 400, by decide, rfl⟩
  · rw [if_neg h2]
    exact Or.inl rfl

theorem bitsFragment_of_firstFail (cfg : Config) (m : String → String → Option Bool)
    (fs : FileSystem) (r : Request) (u : String) (sid : String) (st : Nat)
    (h : firstFail cfg m fs r u = some (sid, st)) :
    bitsFragment cfg m fs r u = (bitsError [] sid st 0 ErrorContextRemoteFile, fs, []) := by
  unfold firstFail at h
  by_cases h1 : ¬ isValidUUID u
  · rw [if_pos h1] at h
    simp only [Option.some.injEq, Prod.mk.injEq] at h
    obtain ⟨hsid, hst⟩ := h
    subst hsid hst
    simp only [bitsFragment]
    rw [if_pos (Or.inr h1)]
  rw [if_neg h1] at h
  simp only [not_not] at h1
  have hu0 : u ≠ ("") := isValidUUID_ne_empty (by simpa using h1)
  by_cases h2 : fs.dirExists (pathJoin cfg.tempDir u) = true
  case neg =>
    rw [if_pos (by simpa using h2)] at h
    simp only [Option.some.injEq, Prod.mk.injEq] at h
    obtain ⟨hsid, hst⟩ := h
    subst hsid hst
    simp only [bitsFragment]
    rw [if_neg (by simp [hu0, h1]), if_pos (by simpa using h2)]
  rw [if_neg (by simpa using h2)] at h
  simp only [bitsFragment]
  rw [if_neg (by simp [hu0, h1]), if_neg (by simp [h2]), mkdirAll_of_contains h2]
  by_cases h3 : lastSegment r.requestURI = ("")
  · rw [if_pos h3] at h
    simp only [Option.some.injEq, Prod.mk.injEq] at h
    obtain ⟨hsid, hst⟩ := h
    subst hsid hst
    rw [if_pos h3]
  rw [if_neg h3] at h
  rw [if_neg h3]
  by_cases h4 : scanMatch m (lastSegment r.requestURI) cfg.disallowed = some false ∧
      scanMatch m (lastSegment r.requestURI) cfg.allowed = some true
  case neg =>
    rw [if_pos h4] at h
    simp only [Option.some.injEq, Prod.mk.injEq] at h
    obtain ⟨hsid, hst⟩ := h
    subst hsid hst
    cases hden : scanMatch m (lastSegment r.requestURI) cfg.disallowed with
    | none => rfl
    | some bden =>
      cases bden with
      | true => rfl
      | false =>
        cases hall : scanMatch m (lastSegment r.requestURI) cfg.allowed with
        | none => rfl
        | some ball =>
          cases ball with
          | false => rfl
          | true => exact absurd ⟨hden, hall⟩ h4
  rw [if_neg (not_not_intro h4)] at h
  obtain ⟨hden, hall⟩ := h4
  rw [hden, hall]
  cases hpr : parseRange (r.header ("Content-Range")) with
  | none =>
    rw [hpr] at h
    simp only [Option.some.injEq, Prod.mk.injEq] at h
    obtain ⟨hsid, hst⟩ := h
    subst hsid hst
    rfl
  | some trip =>
    obtain ⟨a, b, c⟩ := trip
    rw [hpr] at h
    dsimp only at h ⊢
    by_cases h6 : cfg.maxSize > 0 ∧ c > cfg.maxSize
    · rw [if_pos h6] at h
      simp only [Option.some.injEq, Prod.mk.injEq] at h
      obtain ⟨hsid, hst⟩ := h
      subst hsid hst
      rw [if_pos h6]
    rw [if_neg h6] at h
    rw [if_neg h6]
    cases hcl : parseUint64 (r.header ("Content-Length")) with
    | none =>
      rw [hcl] at h
      simp only [Option.some.injEq, Prod.mk.injEq] at h
      obtain ⟨hsid, hst⟩ := h
      subst hsid hst
      rfl
    | some fsz =>
      rw [hcl] at h
      dsimp only at h ⊢
      by_cases h8 : r.body.length ≠ fsz
      · rw [if_pos h8] at h
        simp only [Option.some.injEq, Prod.mk.injEq] at h
        obtain ⟨hsid, hst⟩ := h
        subst hsid hst
        rw [if_pos h8]
      rw [if_neg h8] at h
      rw [if_neg h8]
      by_cases h9 : b - a + 1 ≠ fsz
      · rw [if_pos h9] at h
        simp only [Option.some.injEq, Prod.mk.injEq] at h
        obtain ⟨hsid, hst⟩ := h
        subst hsid hst
        rw [if_pos h9]
      rw [if_neg h9] at h
      exact absurd h (by simp)

theorem ackFragment_lookup (u : String) (n : Nat) :
    (ackFragment u n).headers.lookup ("BITS-Received-Content-Range") =
      some (toString n) := by
  simp [ackFragment, List.lookup]

theorem ServeHTTP_shape (cfg : Config) (m : String → String → Option Bool)
    (ur : Option String) (mf : Bool) (fs : FileSystem) (r : Request)
    (hm : r.method = cfg.allowedMethod) :
    (ServeHTTP cfg m ur mf fs r).1.status = 200 ∨
    ∃ pre sid st, st ≠ 200 ∧
      (ServeHTTP cfg m ur mf fs r).1 = bitsError pre sid st 0 ErrorContextRemoteFile := by
  simp only [ServeHTTP]
  rw [if_neg (by simp [hm])]
  by_cases h1 : strToLower (r.header ("BITS-Packet-Type")) = ("ping")
  · rw [if_pos h1]
    exact Or.inl rfl
  rw [if_neg h1]
  by_cases h2 : strToLower (r.header ("BITS-Packet-Type")) = ("create-session")
  · rw [if_pos h2]
    rcases bitsCreate_shape cfg ur mf fs r with h | ⟨sid, st, hst, he⟩
    · exact Or.inl h
    · exact Or.inr ⟨[], sid, st, hst, he⟩
  rw [if_neg h2]
  by_cases h3 : strToLower (r.header ("BITS-Packet-Type")) = ("cancel-session")
  · rw [if_pos h3]
    rcases bitsCancel_shape cfg fs (r.header ("BITS-Session-Id")) with h | ⟨sid, st, hst, he⟩
    · exact Or.inl h
    · exact Or.inr ⟨[], sid, st, hst, he⟩
  rw [if_neg h3]
  by_cases h4 : strToLower (r.header ("BITS-Packet-Type")) = ("close-session")
  · rw [if_pos h4]
    rcases bitsClose_shape cfg fs (r.header ("BITS-Session-Id")) with h | ⟨sid, st, hst, he⟩
    · exact Or.inl h
    · exact Or.inr ⟨[], sid, st, hst, he⟩
  rw [if_neg h4]
  by_cases h5 : strToLower (r.header ("BITS-Packet-Type")) = ("fragment")
  · rw [if_pos h5]
    rcases bitsFragment_cases cfg m fs r (r.header ("BITS-Session-Id")) with
      ⟨pre, sid, st, hst, he⟩ | ⟨a, b, c, fsz, _, _, he⟩
    · exact Or.inr ⟨pre, sid, st, hst, by rw [he]⟩
    · refine Or.inl ?_
      rw [he]
      rfl
  rw [if_neg h5]
  exact Or.inr ⟨[], (""), 400, by decide, rfl⟩

/-! Claim theorems. -/

/-- Claim C1: every Fragment request that passes all nine preconditions and
is neither stale (`range_end < file_size`) nor gapped
(`range_start > file_size`) appends exactly the suffix
`body[file_size − range_start ..]` of the request body to the file, and the
200 success ack carries `BITS-Received-Content-Range` equal to the on-disk
size of the file after the write, which is `file_size` plus the number of
bytes written. -/
theorem fragment_success_appends_suffix (cfg : Config)
    (m : String → String → Option Bool) (fs : FileSystem) (r : Request)
    (u : String) (a b c fsz : Nat)
    (hpre : FragPre cfg m fs r u a b c fsz)
    (hsg : NotStaleGap fs (fragPath cfg u r) a b) :
    (bitsFragment cfg m fs r u).2.1.readFile (fragPath cfg u r) =
      some (fileContents fs (fragPath cfg u r) ++
        r.body.drop (fileSize fs (fragPath cfg u r) - a)) ∧
    (bitsFragment cfg m fs r u).1.status = 200 ∧
    (bitsFragment cfg m fs r u).1.headers.lookup ("BITS-Received-Content-Range") =
      some (toString (fileSize (bitsFragment cfg m fs r u).2.1 (fragPath cfg u r))) ∧
    fileSize (bitsFragment cfg m fs r u).2.1 (fragPath cfg u r) =
      fileSize fs (fragPath cfg u r) +
        (r.body.drop (fileSize fs (fragPath cfg u r) - a)).length := by
  have heq := bitsFragment_success_eq cfg m fs r u a b c fsz hpre hsg
  obtain ⟨_, _, _, _, _, hparse, _, _, hblen, hrsz⟩ := hpre
  obtain ⟨hsz1, hsz2⟩ := hsg
  have hab := parseRange_sound hparse
  rw [heq]
  dsimp only
  have hfs' : fileSize
      (fs.setFile (fragPath cfg u r)
        (fileContents fs (fragPath cfg u r) ++
         r.body.drop (fileSize fs (fragPath cfg u r) - a)))
      (fragPath cfg u r) = b + 1 := by
    rw [fileSize_setFile, List.length_append, fileContents_length,
      List.length_drop, hblen]
    omega
  refine ⟨readFile_setFile fs (fragPath cfg u r) _, rfl, ?_, ?_⟩
  · rw [hfs', ackFragment_lookup]
  · rw [hfs', List.length_drop, hblen]
    omega

/-- Witness for C1: the first fragment of the two-fragment scenario
satisfies the hypotheses and is acknowledged with 200. -/
theorem fragment_success_appends_suffix_witness :
    FragPre cfg0 mAll fs0 req0 uuid0 0 4 10 5 ∧
    NotStaleGap fs0 (fragPath cfg0 uuid0 req0) 0 4 ∧
    (bitsFragment cfg0 mAll fs0 req0 uuid0).1.status = 200 :=
  ⟨by decide, by decide,
   (fragment_success_appends_suffix cfg0 mAll fs0 req0 uuid0 0 4 10 5
     (by decide) (by decide)).2.1⟩

/-- Claim C10: in every Fragment request that reaches the write step, the
subtraction `dataOffset = file_size − range_start` cannot underflow
(`range_start ≤ file_size`) and `dataOffset` is strictly below the body
length, so the slice `data[dataOffset:]` is in bounds and selects a
nonempty suffix — the one the handler writes. -/
theorem fragment_slice_in_bounds (cfg : Config)
    (m : String → String → Option Bool) (fs : FileSystem) (r : Request)
    (u : String) (a b c fsz : Nat)
    (hpre : FragPre cfg m fs r u a b c fsz)
    (hsg : NotStaleGap fs (fragPath cfg u r) a b) :
    a ≤ fileSize fs (fragPath cfg u r) ∧
    fileSize fs (fragPath cfg u r) - a < r.body.length ∧
    r.body.drop (fileSize fs (fragPath cfg u r) - a) ≠ [] ∧
    (bitsFragment cfg m fs r u).2.1.readFile (fragPath cfg u r) =
      some (fileContents fs (fragPath cfg u r) ++
        r.body.drop (fileSize fs (fragPath cfg u r) - a)) := by
  have heq := bitsFragment_success_eq cfg m fs r u a b c fsz hpre hsg
  obtain ⟨_, _, _, _, _, hparse, _, _, hblen, hrsz⟩ := hpre
  obtain ⟨hsz1, hsz2⟩ := hsg
  have hab := parseRange_sound hparse
  refine ⟨hsz2, by omega, ?_, ?_⟩
  · intro hnil
    have := congrArg List.length hnil
    rw [List.length_drop] at this
    simp only [List.length_nil] at this
    omega
  · rw [heq]
    exact readFile_setFile fs (fragPath cfg u r) _

/-- Witness for C10: the offset arithmetic at the concrete first
fragment. -/
theorem fragment_slice_in_bounds_witness :
    FragPre cfg0 mAll fs0 req0 uuid0 0 4 10 5 ∧
    NotStaleGap fs0 (fragPath cfg0 uuid0 req0) 0 4 ∧
    fileSize fs0 (fragPath cfg0 uuid0 req0) - 0 < req0.body.length :=
  ⟨by decide, by decide,
   (fragment_slice_in_bounds cfg0 mAll fs0 req0 uuid0 0 4 10 5
     (by decide) (by decide)).2.1⟩

/-- Claim C2 (code bug): on a stale replay — and likewise on a gapped
fragment — the handler responds 416 with the current file size and writes
nothing, but the header carrying the size is the misspelled
`BITS-Recieved-Content-Range` of handler.go lines 300 and 306, not
`BITS-Received-Content-Range` as the claim states; the correctly spelled
header is absent from the response. -/
theorem fragment_stale_gap_misspelled_header :
    bitsFragment cfg0 mAll fsDone req0 uuid0 =
      (bitsError [(("BITS-Recieved-Content-Range"), ("10"))] uuid0 416 0
        ErrorContextRemoteFile, fsDone, []) ∧
    (bitsFragment cfg0 mAll fsDone req0 uuid0).1.headers.lookup
      ("BITS-Received-Content-Range") = none ∧
    bitsFragment cfg0 mAll fs0 req1 uuid0 =
      (bitsError [(("BITS-Recieved-Content-Range"), ("0"))] uuid0 416 0
        ErrorContextRemoteFile, fs0, []) ∧
    (bitsFragment cfg0 mAll fs0 req1 uuid0).1.headers.lookup
      ("BITS-Received-Content-Range") = none :=
  ⟨by decide, by decide, by decide, by decide⟩

/-- Claim C3: the nine Fragment preconditions are checked in the spec's
order and the first failure determines the response: whenever the ordered
cascade `firstFail` (written from the spec) reports a first failing check,
the handler answers exactly with that check's error — 413 for the max-size
check, 400 for all others, session id as the cascade says — changes no
state and emits no event. -/
theorem fragment_precondition_order (cfg : Config)
    (m : String → String → Option Bool) (fs : FileSystem) (r : Request)
    (u sid : String) (st : Nat)
    (h : firstFail cfg m fs r u = some (sid, st)) :
    bitsFragment cfg m fs r u =
      (bitsError [] sid st 0 ErrorContextRemoteFile, fs, []) :=
  bitsFragment_of_firstFail cfg m fs r u sid st h

/-- Witness for C3: a fragment with an unparsable `Content-Range` fails at
the fifth check and is answered 400. -/
theorem fragment_precondition_order_witness :
    firstFail cfg0 mAll fs0 reqBadRange uuid0 = some (uuid0, 400) ∧
    bitsFragment cfg0 mAll fs0 reqBadRange uuid0 =
      (bitsError [] uuid0 400 0 ErrorContextRemoteFile, fs0, []) :=
  ⟨by decide,
   fragment_precondition_order cfg0 mAll fs0 reqBadRange uuid0 uuid0 400 (by decide)⟩

/-- Claim C4: over a whole upload of one file (a run of Fragment requests
with a fixed session id, filename and declared file length, starting from a
nonexistent file), the receive-file event is emitted exactly once if the
upload completes and never otherwise — in particular an accepted non-final
fragment emits no receive event — and every receive event carries the
session id and the upload file path.  The event is part of the same
request's trace as its success ack (the handler invokes the callback before
composing the ack headers). -/
theorem receive_event_exactly_once (cfg : Config)
    (m : String → String → Option Bool) (u f : String) (L : Nat)
    (reqs : List Request) (fs : FileSystem)
    (hu : ∀ r ∈ reqs, r.header ("BITS-Session-Id") = u)
    (hf : ∀ r ∈ reqs, lastSegment r.requestURI = f)
    (hL : ∀ r ∈ reqs, Option.all (fun x => x.2.2 == L)
        (parseRange (r.header ("Content-Range"))) = true)
    (h0 : fs.readFile (pathJoin (pathJoin cfg.tempDir u) f) = none)
    (hL0 : 0 < L) :
    countReceive (runFragments cfg m fs reqs).2.2 =
      (if fileSize (runFragments cfg m fs reqs).1
          (pathJoin (pathJoin cfg.tempDir u) f) = L then 1 else 0) ∧
    ∀ e ∈ (runFragments cfg m fs reqs).2.2, e.1 = EventType.recieveFile →
      e.2.1 = u ∧ e.2.2 = pathJoin (pathJoin cfg.tempDir u) f := by
  have hsz : fileSize fs (pathJoin (pathJoin cfg.tempDir u) f) = 0 := by
    unfold fileSize
    rw [h0]
  obtain ⟨h1, _⟩ := runFragments_receive_count cfg m u f L reqs fs hu hf hL (by omega)
  constructor
  · rw [hsz, if_neg (by omega)] at h1
    simpa using h1
  · exact runFragments_receive_events cfg m u f reqs fs hu hf

/-- Witness for C4: the two-fragment upload of `HelloWorld`. -/
theorem receive_event_exactly_once_witness :
    (∀ r ∈ reqs01, r.header ("BITS-Session-Id") = uuid0) ∧
    (∀ r ∈ reqs01, lastSegment r.requestURI = ("hello.txt")) ∧
    countReceive (runFragments cfg0 mAll fs0 reqs01).2.2 =
      (if fileSize (runFragments cfg0 mAll fs0 reqs01).1
          (pathJoin (pathJoin cfg0.tempDir uuid0) ("hello.txt")) = 10
       then 1 else 0) :=
  ⟨by decide, by decide,
   (receive_event_exactly_once cfg0 mAll uuid0 ("hello.txt") 10 reqs01 fs0
     (by decide) (by decide) (by decide) (by decide) (by decide)).1⟩

/-- Claim C9: for a fixed (session, filename) and declared file length `L`,
the `BITS-Received-Content-Range` values of the successful Fragment acks of
a run form a non-decreasing sequence, each value is at most `L`, and each
value is at least the file size at the start of the run (every ack equals
the on-disk size at its response time, which only grows). -/
theorem fragment_acks_monotone (cfg : Config)
    (m : String → String → Option Bool) (u f : String) (L : Nat)
    (reqs : List Request) (fs : FileSystem)
    (hu : ∀ r ∈ reqs, r.header ("BITS-Session-Id") = u)
    (hf : ∀ r ∈ reqs, lastSegment r.requestURI = f)
    (hL : ∀ r ∈ reqs, Option.all (fun x => x.2.2 == L)
        (parseRange (r.header ("Content-Range"))) = true) :
    ∃ sizes : List Nat,
      (runFragments cfg m fs reqs).2.1.filterMap successAckHeader =
        sizes.map (fun n => toString n) ∧
      List.Chain' (· ≤ ·) sizes ∧
      (∀ n ∈ sizes, n ≤ L) ∧
      (∀ n ∈ sizes, fileSize fs (pathJoin (pathJoin cfg.tempDir u) f) ≤ n) :=
  runFragments_acks cfg m u f L reqs fs hu hf hL

/-- Witness for C9: the successful acks of the two-fragment upload. -/
theorem fragment_acks_monotone_witness :
    (∀ r ∈ reqs01, r.header ("BITS-Session-Id") = uuid0) ∧
    ∃ sizes : List Nat,
      (runFragments cfg0 mAll fs0 reqs01).2.1.filterMap successAckHeader =
        sizes.map (fun n => toString n) ∧
      List.Chain' (· ≤ ·) sizes ∧
      (∀ n ∈ sizes, n ≤ 10) ∧
      (∀ n ∈ sizes, fileSize fs0
          (pathJoin (pathJoin cfg0.tempDir uuid0) ("hello.txt")) ≤ n) :=
  ⟨by decide,
   fragment_acks_monotone cfg0 mAll uuid0 ("hello.txt") 10 reqs01 fs0
     (by decide) (by decide) (by decide)⟩

/-- Claim C5 (amended): the protocol check of Create-Session splits
`BITS-Supported-Protocols` on single spaces.  If no space-separated token
equals `config.protocol`, the server responds 400; otherwise it mints a
session id, creates the session directory and responds 200 with
`BITS-Packet-Type: Ack`, `BITS-Protocol` set to the chosen protocol,
`BITS-Session-Id` and `Accept-Encoding: Identity`; a UUID-mint or mkdir
failure yields 500. -/
theorem create_session_space_tokens (cfg : Config) (ur : Option String)
    (mf : Bool) (fs : FileSystem) (r : Request) :
    ((cfg.protocol ∉ splitBySpace (r.header ("BITS-Supported-Protocols"))) →
      bitsCreate cfg ur mf fs r =
        (bitsError [] ("") 400 0 ErrorContextRemoteFile, fs, [])) ∧
    (cfg.protocol ∈ splitBySpace (r.header ("BITS-Supported-Protocols")) →
      ∀ uuid, ur = some uuid → mf = false →
      bitsCreate cfg ur mf fs r =
        ({ status := 200
           headers := [(("BITS-Packet-Type"), ("Ack")),
                       (("BITS-Protocol"), cfg.protocol),
                       (("BITS-Session-Id"), uuid),
                       (("Accept-Encoding"), ("Identity"))]
           body := [] },
         fs.mkdirAll (pathJoin cfg.tempDir uuid),
         [(EventType.createSession, uuid, pathJoin cfg.tempDir uuid)])) ∧
    (cfg.protocol ∈ splitBySpace (r.header ("BITS-Supported-Protocols")) →
      (ur = none ∨ mf = true) →
      bitsCreate cfg ur mf fs r =
        (bitsError [] ("") 500 0 ErrorContextRemoteFile, fs, [])) := by
  refine ⟨?_, ?_, ?_⟩
  · intro hni
    simp only [bitsCreate]
    rw [if_pos (chooseProtocol_not_mem hni (splitBySpace_ne_nil _))]
  · intro hmem uuid hur hmf
    subst hur hmf
    simp only [bitsCreate]
    rw [chooseProtocol_mem hmem]
    rw [if_neg (by simp)]
    rfl
  · intro hmem hfail
    simp only [bitsCreate]
    rw [chooseProtocol_mem hmem]
    rw [if_neg (by simp)]
    rcases hfail with hur | hmf
    · subst hur
      rfl
    · subst hmf
      cases ur with
      | none => rfl
      | some uuid => rfl

/-- Counterexample for C5: the configured protocol is a whitespace-separated
token of the request's `BITS-Supported-Protocols` (the two GUIDs are
tab-separated), so the claim demands a 200 ack, but the handler splits on
single spaces only and responds 400 without minting a session. -/
theorem create_session_whitespace_counterexample :
    cfg0.protocol ∈
      whitespaceTokens (reqTabProtocols.header ("BITS-Supported-Protocols")) ∧
    (bitsCreate cfg0 (some uuid0) false fs0 reqTabProtocols).1.status = 400 ∧
    (bitsCreate cfg0 (some uuid0) false fs0 reqTabProtocols).2.2 = [] :=
  ⟨by decide, by decide, by decide⟩

/-- Witness for C5 (amended): a Create-Session offering exactly the
configured protocol succeeds with the four ack headers. -/
theorem create_session_space_tokens_witness :
    cfg0.protocol ∈ splitBySpace (reqCreate.header ("BITS-Supported-Protocols")) ∧
    bitsCreate cfg0 (some uuid0) false fs0 reqCreate =
      ({ status := 200
         headers := [(("BITS-Packet-Type"), ("Ack")),
                     (("BITS-Protocol"), cfg0.protocol),
                     (("BITS-Session-Id"), uuid0),
                     (("Accept-Encoding"), ("Identity"))]
         body := [] },
       fs0.mkdirAll (pathJoin cfg0.tempDir uuid0),
       [(EventType.createSession, uuid0, pathJoin cfg0.tempDir uuid0)]) :=
  ⟨by decide,
   (create_session_space_tokens cfg0 (some uuid0) false fs0 reqCreate).2.1
     (by decide) uuid0 rfl rfl⟩

/-- Claim C6 (amended): the deny list is evaluated before the allow list —
a deny match rejects the request no matter what the allow list contains —
and when no deny pattern matches the request is rejected unless an allow
pattern matches; a filter rejection produces the BadRequest error kind
(HTTP 400), not Forbidden. -/
theorem filter_deny_wins (cfg : Config) (m : String → String → Option Bool)
    (fs : FileSystem) (r : Request) (u : String)
    (h1 : isValidUUID u = true)
    (h2 : fs.dirExists (pathJoin cfg.tempDir u) = true)
    (h3 : lastSegment r.requestURI ≠ ("")) :
    (scanMatch m (lastSegment r.requestURI) cfg.disallowed = some true →
      ∀ al : List String,
        bitsFragment { cfg with allowed := al } m fs r u =
          (bitsError [] u 400 0 ErrorContextRemoteFile, fs, [])) ∧
    (scanMatch m (lastSegment r.requestURI) cfg.disallowed = some false →
      scanMatch m (lastSegment r.requestURI) cfg.allowed = some false →
      bitsFragment cfg m fs r u =
        (bitsError [] u 400 0 ErrorContextRemoteFile, fs, [])) := by
  have hu0 := isValidUUID_ne_empty h1
  constructor
  · intro hden al
    simp only [bitsFragment]
    rw [if_neg (by simp [hu0, h1]), if_neg (by simp [h2]),
      mkdirAll_of_contains h2, if_neg h3, hden]
  · intro hden hall
    simp only [bitsFragment]
    rw [if_neg (by simp [hu0, h1]), if_neg (by simp [h2]),
      mkdirAll_of_contains h2, if_neg h3, hden, hall]

/-- Counterexample for C6: a deny-matched filename is rejected with status
400 (BadRequest), not 403 (Forbidden) as the claim's error kind says. -/
theorem filter_forbidden_counterexample :
    scanMatch mEq (lastSegment req0.requestURI) cfgDeny.disallowed = some true ∧
    (bitsFragment cfgDeny mEq fs0 req0 uuid0).1.status = 400 ∧
    (bitsFragment cfgDeny mEq fs0 req0 uuid0).1.status ≠ 403 :=
  ⟨by decide, by decide, by decide⟩

/-- Witness for C6 (amended): the deny match on `hello.txt` wins even with
an empty allow list. -/
theorem filter_deny_wins_witness :
    scanMatch mEq (lastSegment req0.requestURI) cfgDeny.disallowed = some true ∧
    bitsFragment { cfgDeny with allowed := [] } mEq fs0 req0 uuid0 =
      (bitsError [] uuid0 400 0 ErrorContextRemoteFile, fs0, []) :=
  ⟨by decide,
   (filter_deny_wins cfgDeny mEq fs0 req0 uuid0 (by decide) (by decide)
     (by decide)).1 (by decide) []⟩

/-- Claim C7: a Fragment, Cancel-Session or Close-Session request carrying
a well-formed session id whose directory does not exist is answered 400,
with no state change and no event. -/
theorem session_gating (cfg : Config) (m : String → String → Option Bool)
    (fs : FileSystem) (r : Request) (u : String)
    (hv : isValidUUID u = true)
    (hd : fs.dirExists (pathJoin cfg.tempDir u) = false) :
    bitsFragment cfg m fs r u =
      (bitsError [] u 400 0 ErrorContextRemoteFile, fs, []) ∧
    bitsCancel cfg fs u =
      (bitsError [] u 400 0 ErrorContextRemoteFile, fs, []) ∧
    bitsClose cfg fs u =
      (bitsError [] u 400 0 ErrorContextRemoteFile, fs, []) := by
  have hu0 := isValidUUID_ne_empty hv
  refine ⟨?_, ?_, ?_⟩ <;>
  · simp only [bitsFragment, bitsCancel, bitsClose]
    rw [if_neg (by simp [hu0, hv]), if_pos (by simp [hd])]

/-- Witness for C7: an empty filesystem rejects the concrete session. -/
theorem session_gating_witness :
    isValidUUID uuid0 = true ∧
    fsEmpty.dirExists (pathJoin cfg0.tempDir uuid0) = false ∧
    bitsFragment cfg0 mAll fsEmpty req0 uuid0 =
      (bitsError [] uuid0 400 0 ErrorContextRemoteFile, fsEmpty, []) :=
  ⟨by decide, by decide,
   (session_gating cfg0 mAll fsEmpty req0 uuid0 (by decide) (by decide)).1⟩

/-- Claim C8 (amended): every error response produced once the method gate
has passed — including BadRequest for an unknown packet type — has an
empty body and carries `BITS-Packet-Type: Ack`, a `BITS-Session-Id`
(possibly empty), a `BITS-Error-Code` and
`BITS-Error-Context: 0x00000005`.  The MethodNotAllowed (405) response is
exempt: it is a plain `http.Error` without BITS headers (see the
counterexample). -/
theorem error_responses_have_bits_headers (cfg : Config)
    (m : String → String → Option Bool) (ur : Option String) (mf : Bool)
    (fs : FileSystem) (r : Request)
    (hm : r.method = cfg.allowedMethod)
    (hs : (ServeHTTP cfg m ur mf fs r).1.status ≠ 200) :
    (ServeHTTP cfg m ur mf fs r).1.body = [] ∧
    ((("BITS-Packet-Type"), ("Ack")) ∈ (ServeHTTP cfg m ur mf fs r).1.headers) ∧
    (∃ sid, (("BITS-Session-Id"), sid) ∈ (ServeHTTP cfg m ur mf fs r).1.headers) ∧
    (∃ ec, (("BITS-Error-Code"), ec) ∈ (ServeHTTP cfg m ur mf fs r).1.headers) ∧
    ((("BITS-Error-Context"), ("0x00000005")) ∈
      (ServeHTTP cfg m ur mf fs r).1.headers) := by
  rcases ServeHTTP_shape cfg m ur mf fs r hm with h | ⟨pre, sid, st, hst, he⟩
  · exact absurd h hs
  · rw [he]
    obtain ⟨hb, hpt, hsid, hec, hctx⟩ := bitsError_ack_shape pre sid st 0
    exact ⟨hb, hpt, ⟨sid, hsid⟩, ⟨toHex8 0, hec⟩, hctx⟩

/-- Counterexample for C8: the MethodNotAllowed response is Go's plain
`http.Error`: status 405, non-empty body, no BITS headers at all. -/
theorem method_not_allowed_counterexample :
    reqWrongMethod.method ≠ cfg0.allowedMethod ∧
    (ServeHTTP cfg0 mAll none false fs0 reqWrongMethod).1.status = 405 ∧
    (ServeHTTP cfg0 mAll none false fs0 reqWrongMethod).1.body ≠ [] ∧
    (("BITS-Packet-Type"), ("Ack")) ∉
      (ServeHTTP cfg0 mAll none false fs0 reqWrongMethod).1.headers :=
  ⟨by decide, by decide, by decide, by decide⟩

/-- Witness for C8 (amended): the unknown-packet-type error carries the
BITS error headers and an empty body. -/
theorem error_responses_have_bits_headers_witness :
    reqUnknownPacket.method = cfg0.allowedMethod ∧
    (ServeHTTP cfg0 mAll none false fs0 reqUnknownPacket).1.status ≠ 200 ∧
    (ServeHTTP cfg0 mAll none false fs0 reqUnknownPacket).1.body = [] :=
  ⟨by decide, by decide,
   (error_responses_have_bits_headers cfg0 mAll none false fs0 reqUnknownPacket
     (by decide) (by decide)).1⟩

end Gobits
